import Mathlib

/-!
# Verification of gpg/gpg.go (package gpg of mgmt)

A shallow embedding of the Go package: the resource GpgRes, its constructor
NewGpgRes with Init, SelfSign, addAdminPubKey, SavePubKey, Crypt, CryptingMsg,
WriteToAdmin, Decrypt and checkError.

* Go strings and byte slices are lists of bytes (Fin 256).
* A method with a pointer receiver is a state transformer on the pair
  (receiver, world); the world holds the file system and the log.
* A nil pointer dereference is the outcome Result.crashed.
* encoding/base64 (StdEncoding) is modelled concretely. Of the OpenPGP library
  golang.org/x/crypto/openpgp, the choice of algorithms at the start of
  Encrypt is modelled concretely and the cryptography is a parameter
  (OpenPGP), with one small concrete instance (toy) used to evaluate the
  program on explicit inputs.
* The library draws a session key and reads the clock at every encryption:
  the world holds the state of the random source and of the clock, and every
  call of Encrypt sees a new one.
-/

namespace Gpg

/-! ## Go runtime -/

abbrev Byte := Fin 256
abbrev Bytes := List Byte

/-- Go error values that reach this package. -/
inductive GoError where
  | corruptInput (offset : Nat)   -- base64.CorruptInputError
  | osError (code : Nat)          -- errors of package os (ErrNotExist, ErrInvalid, ...)
  | pgpError (code : Nat)         -- errors of the openpgp library
  | invalidArgument (msg : String) -- errors.InvalidArgumentError of openpgp/errors
deriving DecidableEq, Repr

/-- Outcome of running a Go function: it returns, or the goroutine panics on a
nil pointer dereference. -/
inductive Result (α : Type) where
  | ret (a : α)
  | crashed
deriving DecidableEq, Repr

/-- A Go computation over a mutable state. -/
def Go (σ α : Type) : Type := σ → Result α × σ

def Go.pure {σ α : Type} (a : α) : Go σ α := fun s => (Result.ret a, s)

def Go.bind {σ α β : Type} (m : Go σ α) (f : α → Go σ β) : Go σ β := fun s =>
  match m s with
  | (Result.ret a, s1) => f a s1
  | (Result.crashed, s1) => (Result.crashed, s1)

instance {σ : Type} : Monad (Go σ) where
  pure := Go.pure
  bind := Go.bind

/-- A nil pointer dereference: the computation stops here. -/
def crash {σ α : Type} : Go σ α := fun s => (Result.crashed, s)

/-- The Go pair (value, err) of a library call that returns (nil, err) on
failure and (v, nil) on success. -/
def goPair {α : Type} : Except GoError α → Option α × Option GoError
  | .ok a => (some a, none)
  | .error e => (none, some e)

/-- Conversion uint8(x). -/
def uint8 (x : Nat) : Nat := x % 256

/-! ## encoding/base64, StdEncoding -/

/-- The alphabet encodeStd of encoding/base64:
"ABCDEFGHIJKLMNOPQRSTUVWXYZabcdefghijklmnopqrstuvwxyz0123456789+/". -/
def encodeStd : List Byte :=
  [65,66,67,68,69,70,71,72,73,74,75,76,77,78,79,80,81,82,83,84,85,86,87,88,89,90,
   97,98,99,100,101,102,103,104,105,106,107,108,109,110,111,112,113,114,115,116,117,118,119,120,121,122,
   48,49,50,51,52,53,54,55,56,57,43,47]

/-- StdPadding, the character =. -/
def padChar : Byte := 61

/-- enc.encode[i]. -/
def encChar (i : Nat) : Byte := encodeStd.getD i 0

/-- enc.decodeMap[c]: the index of c in the alphabet, 0xff for every other byte. -/
def decodeMap (c : Byte) : Nat :=
  match encodeStd.indexOf? c with
  | some i => i
  | none => 0xff

/-- The bytes skipped inside encoded text: line feed and carriage return. -/
def isNewline (c : Byte) : Bool := c = 10 || c = 13

/-- StdEncoding.EncodeToString: three source bytes become four characters
(val>>18&0x3F, val>>12&0x3F, val>>6&0x3F, val&0x3F of the 24 bit group); a
final group of one or two bytes is padded with =. -/
def encodeToString : Bytes → Bytes
  | b0 :: b1 :: b2 :: rest =>
    let val := b0.val * 65536 + b1.val * 256 + b2.val
    encChar (val / 262144 % 64) :: encChar (val / 4096 % 64) :: encChar (val / 64 % 64)
      :: encChar (val % 64) :: encodeToString rest
  | [b0, b1] =>
    let val := b0.val * 65536 + b1.val * 256
    [encChar (val / 262144 % 64), encChar (val / 4096 % 64), encChar (val / 64 % 64), padChar]
  | [b0] =>
    let val := b0.val * 65536
    [encChar (val / 262144 % 64), encChar (val / 4096 % 64), padChar, padChar]
  | [] => []

/-- The loops "skip over newlines" of decodeQuantum; returns the remaining
input and its offset. -/
def skipNewlines : Bytes → Nat → Bytes × Nat
  | [], si => ([], si)
  | c :: rest, si => if isNewline c then skipNewlines rest (si + 1) else (c :: rest, si)

/-- End of decodeQuantum: the 6 bit values of dbuf are joined into
val = dbuf[0]<<18 | dbuf[1]<<12 | dbuf[2]<<6 | dbuf[3] and the first dlen-1 of
byte(val>>16), byte(val>>8), byte(val) are stored. -/
def assemble (dbuf : List Nat) (dlen : Nat) : Bytes :=
  let val := dbuf.getD 0 0 * 262144 + dbuf.getD 1 0 * 4096 + dbuf.getD 2 0 * 64 + dbuf.getD 3 0
  ([Fin.ofNat (val / 65536), Fin.ofNat (val / 256), Fin.ofNat val] : Bytes).take (dlen - 1)

/-- decodeQuantum after the padding of a quantum was read: newlines are
skipped, anything left is trailing garbage (CorruptInputError), and in both
cases the quantum read so far is stored. -/
def finishPadding (rest : Bytes) (si : Nat) (dbuf : List Nat) (j : Nat) (out : Bytes) :
    Bytes × Option GoError :=
  match skipNewlines rest si with
  | ([], _) => (out ++ assemble dbuf j, none)
  | (_ :: _, si1) => (out ++ assemble dbuf j, some (.corruptInput si1))

/-- The loop of (*Encoding).Decode over decodeQuantum: src is the input left
at offset si, j the number of characters of the current quantum held in dbuf,
out the bytes stored so far. On a corrupt input the bytes stored so far are
returned together with the error. -/
def decodeFrom : Bytes → Nat → Nat → List Nat → Bytes → Bytes × Option GoError
  | [], si, j, _, out =>
    if j = 0 then (out, none) else (out, some (.corruptInput (si - j)))
  | c :: rest, si, j, dbuf, out =>
    if decodeMap c ≠ 0xff then
      if j = 3 then decodeFrom rest (si + 1) 0 [] (out ++ assemble (dbuf ++ [decodeMap c]) 4)
      else decodeFrom rest (si + 1) (j + 1) (dbuf ++ [decodeMap c]) out
    else if isNewline c then decodeFrom rest (si + 1) j dbuf out
    else if c ≠ padChar then (out, some (.corruptInput si))
    else if j = 0 ∨ j = 1 then (out, some (.corruptInput si))
    else if j = 2 then
      match skipNewlines rest (si + 1) with
      | ([], si1) => (out, some (.corruptInput si1))
      | (c2 :: rest2, si1) =>
        if c2 ≠ padChar then (out, some (.corruptInput (si1 - 1)))
        else finishPadding rest2 (si1 + 1) dbuf j out
    else finishPadding rest (si + 1) dbuf j out

/-- StdEncoding.DecodeString: returns dbuf[:n], err. -/
def decodeString (s : Bytes) : Bytes × Option GoError := decodeFrom s 0 0 [] []

/-! ## Data of golang.org/x/crypto/openpgp -/

/-- packet.Config; only DefaultHash is set by this package. -/
structure Config where
  DefaultHash : Nat
deriving DecidableEq, Repr

structure PublicKey where
  KeyId : Nat
  bits : Bytes
deriving DecidableEq, Repr

structure PrivateKey where
  PublicKey : PublicKey
  secret : Bytes
deriving DecidableEq, Repr

/-- packet.Signature: the three preference lists ([]uint8) this package
assigns, IsPrimaryId (false for nil), and in signed everything the signing
methods compute (hashed subpackets, hash tag, signature value). -/
structure Signature where
  PreferredSymmetric : List Nat
  PreferredHash : List Nat
  PreferredCompression : List Nat
  IsPrimaryId : Bool
  signed : Bytes
deriving DecidableEq, Repr

structure UserId where
  Id : String
  Name : String
  Comment : String
  Email : String
deriving DecidableEq, Repr

/-- openpgp.Identity. An identity built by the library always carries a UserId
and a SelfSignature. -/
structure Identity where
  Name : String
  UserId : UserId
  SelfSignature : Signature
  Signatures : List Signature
deriving DecidableEq, Repr

structure Subkey where
  PublicKey : PublicKey
  PrivateKey : Option PrivateKey
  Sig : Signature
deriving DecidableEq, Repr

/-- openpgp.Entity. Identities is the map Identities (keyed by Identity.Name)
as the list of its values; PrivateKey is nil for a public-key-only entity. -/
structure Entity where
  PrimaryKey : PublicKey
  PrivateKey : Option PrivateKey
  Identities : List Identity
  Subkeys : List Subkey
deriving DecidableEq, Repr

/-- openpgp.MessageDetails: UnverifiedBody is what ioutil.ReadAll reads from
the body reader, readErr the error ReadAll returns with it. -/
structure MessageDetails where
  UnverifiedBody : Bytes
  readErr : Option GoError
deriving DecidableEq, Repr

/-- Constants of crypto (type crypto.Hash, declared as 1 + iota: MD4, MD5,
SHA1, SHA224, SHA256, SHA384, SHA512, ...). -/
def crypto.SHA1 : Nat := 3
def crypto.SHA224 : Nat := 4
def crypto.SHA256 : Nat := 5
def crypto.SHA384 : Nat := 6
def crypto.SHA512 : Nat := 7
def crypto.RIPEMD160 : Nat := 9

/-- Method crypto.Hash.Available in a program built from this package: a hash
is available when its package is linked in. This package and the openpgp
packages it imports link crypto/md5, crypto/sha1, crypto/sha256 and
crypto/sha512; nothing imports golang.org/x/crypto/ripemd160. -/
def crypto.Available (h : Nat) : Bool :=
  h = 2 || h = crypto.SHA1 || h = crypto.SHA224 || h = crypto.SHA256 || h = crypto.SHA384
    || h = crypto.SHA512

/-- Constants of openpgp/packet (type CipherFunction). -/
def packet.Cipher3DES : Nat := 2
def packet.CipherCAST5 : Nat := 3
def packet.CipherAES128 : Nat := 7
def packet.CipherAES192 : Nat := 8
def packet.CipherAES256 : Nat := 9

/-- Constants of openpgp/packet (type CompressionAlgo). -/
def packet.CompressionZIP : Nat := 1
def packet.CompressionZLIB : Nat := 2

/-- The table of openpgp/s2k (hashToHashIdMapping, RFC 4880 section 9.4) from a
crypto.Hash to the OpenPGP hash algorithm identifier. -/
def s2k.HashToHashId (h : Nat) : Option Nat :=
  if h = 2 then some 1            -- crypto.MD5
  else if h = crypto.SHA1 then some 2
  else if h = crypto.RIPEMD160 then some 3
  else if h = crypto.SHA256 then some 8
  else if h = crypto.SHA384 then some 9
  else if h = crypto.SHA512 then some 10
  else if h = crypto.SHA224 then some 11
  else none

/-- The same table read from the identifier to the crypto.Hash
(s2k.HashIdToHash). -/
def s2k.HashIdToHash (id : Nat) : Option Nat :=
  if id = 1 then some 2           -- crypto.MD5
  else if id = 2 then some crypto.SHA1
  else if id = 3 then some crypto.RIPEMD160
  else if id = 8 then some crypto.SHA256
  else if id = 9 then some crypto.SHA384
  else if id = 10 then some crypto.SHA512
  else if id = 11 then some crypto.SHA224
  else none

/-- The names of the same table (s2k.HashIdToString); an identifier outside
the table is printed as a number. -/
def s2k.HashIdToString (id : Nat) : String :=
  if id = 1 then "MD5"
  else if id = 2 then "SHA1"
  else if id = 3 then "RIPEMD160"
  else if id = 8 then "SHA256"
  else if id = 9 then "SHA384"
  else if id = 10 then "SHA512"
  else if id = 11 then "SHA224"
  else "#" ++ toString id

/-- The writer openpgp.Encrypt returns: the random source and clock it was
set up under, the recipients, the signer and the algorithms chosen. -/
structure EncWriter where
  seed : Nat
  recipients : List Entity
  signed : Option Entity
  cipher : Nat
  hash : Nat
deriving DecidableEq, Repr

/-- The cryptography of golang.org/x/crypto/openpgp this package relies on. A
pointer argument that this package can pass as nil is an Option, and a call
that receives one may panic (Result.crashed).

* newEntity, readEntity: NewEntity, and ReadEntity on the bytes of its source;
  both return (nil, err) on failure.
* signUserId, signKey: (*Signature).SignUserId and SignKey; they return the
  new signed part of the signature and the error (the preference lists are
  read, never written).
* serialize: the bytes (*Entity).Serialize writes, and its error.
* signerError: the error, if any, of the checks Encrypt makes on the signer
  (a valid signing key, whose private key is present and decrypted).
* hasEncryptionKey: whether (*Entity).encryptionKey finds a key.
* encrypt: the rest of Encrypt once the algorithms are chosen (session key,
  encrypted key packets); the bytes written to the ciphertext buffer at
  set-up, or the error.
* write, close: the bytes appended to the buffer by Write(msg) and by Close on
  the writer Encrypt returned, with their errors.
* readMessage: ReadMessage on the bytes of its reader and the keyring; it
  returns (nil, err) on failure.

No call writes to an entity it is given. -/
structure OpenPGP where
  newEntity : String → String → String → Config → Except GoError Entity
  readEntity : Bytes → Except GoError Entity
  signUserId : Signature → String → PublicKey → Option PrivateKey → Config →
    Result (Bytes × Option GoError)
  signKey : Signature → PublicKey → Option PrivateKey → Config →
    Result (Bytes × Option GoError)
  serialize : Option Entity → Result (Bytes × Option GoError)
  signerError : Entity → Option GoError
  hasEncryptionKey : Entity → Bool
  encrypt : EncWriter → Except GoError Bytes
  write : EncWriter → Bytes → Bytes × Option GoError
  close : EncWriter → Bytes → Bytes × Option GoError
  readMessage : Bytes → List (Option Entity) → Result (Except GoError MessageDetails)

/-! ## openpgp.Encrypt: the choice of algorithms (openpgp/write.go) -/

/-- Function hashToHashId of write.go. -/
def hashToHashId (h : Nat) : Nat := (s2k.HashToHashId h).getD 0

/-- The ciphers Encrypt may use for the message. -/
def candidateCiphers : List Nat :=
  [uint8 packet.CipherAES128, uint8 packet.CipherAES256, uint8 packet.CipherCAST5]

/-- The hash functions Encrypt may use for the signature. -/
def candidateHashes : List Nat :=
  [hashToHashId crypto.SHA256, hashToHashId crypto.SHA512, hashToHashId crypto.SHA1,
   hashToHashId crypto.RIPEMD160]

/-- What Encrypt assumes of a recipient that states no cipher: the last
candidate. -/
def defaultCiphers : List Nat := candidateCiphers.drop (candidateCiphers.length - 1)

/-- What Encrypt assumes of a recipient that states no hash function: the last
candidate. -/
def defaultHashes : List Nat := candidateHashes.drop (candidateHashes.length - 1)

/-- Function intersectPreferences: the elements of a that occur in b, in the
order of a. -/
def intersectPreferences (a b : List Nat) : List Nat := a.filter (fun v => b.contains v)

/-- Method (*Entity).primaryIdentity: the first identity marked as primary,
else the first identity met; nil for an entity without identities. -/
def primaryIdentity (e : Entity) : Option Identity :=
  match e.Identities.find? (fun id => id.SelfSignature.IsPrimaryId) with
  | some id => some id
  | none => e.Identities.head?

/-- The loop of Encrypt over the recipients: a nil recipient is dereferenced
by encryptionKey; a recipient without encryption key is an error; the
candidates are intersected with the preferences of the primary identity of
each recipient, read from its self-signature. -/
def negotiate (lib : OpenPGP) :
    List (Option Entity) → List Nat → List Nat →
      Result (Except GoError (List Entity × List Nat × List Nat))
  | [], ciphers, hashes => Result.ret (.ok ([], ciphers, hashes))
  | none :: _, _, _ => Result.crashed
  | some e :: rest, ciphers, hashes =>
    if lib.hasEncryptionKey e then
      match primaryIdentity e with
      | none => Result.crashed
      | some id =>
        let sig := id.SelfSignature
        let preferredSymmetric :=
          if sig.PreferredSymmetric.length = 0 then defaultCiphers else sig.PreferredSymmetric
        let preferredHashes :=
          if sig.PreferredHash.length = 0 then defaultHashes else sig.PreferredHash
        match negotiate lib rest (intersectPreferences ciphers preferredSymmetric)
            (intersectPreferences hashes preferredHashes) with
        | Result.ret (.ok r) => Result.ret (.ok (e :: r.1, r.2))
        | r => r
    else Result.ret (.error (.invalidArgument
      "cannot encrypt a message to a key because it has no encryption keys"))

/-- The hash function Encrypt signs with: the first candidate that is
available, replaced by the configured hash (SHA-256 for a nil config) when
that one is available and a candidate; none when no candidate is available. -/
def chooseHash (hashes : List Nat) : Option Nat :=
  let first := hashes.findSome? (fun id =>
    match s2k.HashIdToHash id with
    | some h => if crypto.Available h then some h else none
    | none => none)
  if crypto.Available crypto.SHA256
      && hashes.any (fun id => s2k.HashIdToHash id == some crypto.SHA256) then
    some crypto.SHA256
  else first

/-- Function openpgp.Encrypt(buf, to, signed, nil, nil) under the state seed of
the random source and clock: the writer and the bytes written to buf at
set-up, or (nil, err). -/
def Encrypt (lib : OpenPGP) (seed : Nat) (to_ : List (Option Entity))
    (signed : Option Entity) : Result (Except GoError (EncWriter × Bytes)) :=
  match signed.bind lib.signerError with
  | some err => Result.ret (.error err)
  | none =>
    match negotiate lib to_ candidateCiphers candidateHashes with
    | Result.crashed => Result.crashed
    | Result.ret (.error err) => Result.ret (.error err)
    | Result.ret (.ok r) =>
      if r.2.1.length = 0 ∨ r.2.2.length = 0 then
        Result.ret (.error (.invalidArgument
          "cannot encrypt because recipient set shares no common algorithms"))
      else
        let cipher :=
          if r.2.1.contains (uint8 packet.CipherAES128) then uint8 packet.CipherAES128
          else r.2.1.headD 0
        match chooseHash r.2.2 with
        | none => Result.ret (.error (.invalidArgument
            ("cannot encrypt because no candidate hash functions are compiled in. (Wanted "
              ++ s2k.HashIdToString (r.2.2.headD 0) ++ " in this case.)")))
        | some hash =>
          let w : EncWriter :=
            { seed := seed, recipients := r.1, signed := signed, cipher := cipher, hash := hash }
          match lib.encrypt w with
          | .error err => Result.ret (.error err)
          | .ok buf0 => Result.ret (.ok (w, buf0))

/-! ## The world: file system and log -/

/-- One line printed by log.Println. -/
inductive LogEntry where
  | text (s : String)
  | error (e : GoError)
  | entity (e : Option Entity)
  | secret (label : String) (enc : Bytes)
deriving DecidableEq, Repr

/-- The files (path, contents), the paths at which os.Create fails, the log
written so far, and the state of the random source and of the clock. -/
structure World where
  files : List (String × Bytes)
  locked : List String
  log : List LogEntry
  rand : Nat
deriving DecidableEq, Repr

/-- Type GpgRes. -/
structure GpgRes where
  Name : String
  Comment : String
  Email : String
  Entity : Option Gpg.Entity
  Admin : Option Gpg.Entity
deriving DecidableEq, Repr

/-- log.Println. -/
def logLine (l : LogEntry) : Go World Unit := fun w =>
  (Result.ret (), { w with log := w.log ++ [l] })

/-- The random source and the clock as a call of openpgp.Encrypt sees them;
the next call sees another state. -/
def drawRand : Go World Nat := fun w =>
  (Result.ret w.rand, { w with rand := w.rand + 1 })

/-- os.Open(path): the open file (its contents), or nil and an error. -/
def osOpen (path : String) : Go World (Option Bytes × Option GoError) := fun w =>
  match w.files.lookup path with
  | some content => (Result.ret (some content, none), w)
  | none => (Result.ret (none, some (.osError 2)), w)

/-- os.Create(path): creates or truncates the file; the handle is the path,
nil with an error where the file cannot be created. -/
def osCreate (path : String) : Go World (Option String × Option GoError) := fun w =>
  if path ∈ w.locked then (Result.ret (none, some (.osError 13)), w)
  else (Result.ret (some path, none),
    { w with files := (path, []) :: w.files.filter (fun f => f.1 != path) })

/-- Writing data through bufio.NewWriter(f) and Flush: the data reach the file;
on a nil file every Write returns os.ErrInvalid and nothing is written. -/
def flushTo (f : Option String) (data : Bytes) : Go World Unit := fun w =>
  match f with
  | none => (Result.ret (), w)
  | some path => (Result.ret (),
    { w with files := (path, data) :: w.files.filter (fun f => f.1 != path) })

/-- Runs a function that is not a method inside a method of GpgRes. -/
def liftW {α : Type} (m : Go World α) : Go (GpgRes × World) α := fun s =>
  match m s.2 with
  | (r, w) => (r, (s.1, w))

/-- Reads the receiver. -/
def getObj : Go (GpgRes × World) GpgRes := fun s => (Result.ret s.1, s)

/-- Assigns to fields of the receiver. -/
def modifyObj (f : GpgRes → GpgRes) : Go (GpgRes × World) Unit := fun s =>
  (Result.ret (), (f s.1, s.2))

/-! ## Package gpg -/

/-- Function checkError: a non-nil error is printed, nothing else happens. -/
def checkError (err : Option GoError) : Go World Unit :=
  match err with
  | some e => logLine (.error e)
  | none => pure ()

/-- openpgp.ReadEntity(packet.NewReader(bufio.NewReader(f))): on a nil file
every Read returns os.ErrInvalid, which ReadEntity returns. -/
def ReadEntity (lib : OpenPGP) (f : Option Bytes) : Option Entity × Option GoError :=
  match f with
  | none => (none, some (.osError 22))
  | some content => goPair (lib.readEntity content)

/-- Function addAdminPubKey. The error of os.Open is dropped; the deferred
pubKeyFile.Close() has no effect on what is modelled. -/
def addAdminPubKey (lib : OpenPGP) (path : String) : Go World (Option Entity) := do
  logLine (.text "PGP: Admin pub Key file")
  let (pubKeyFile, _) ← osOpen path
  let (entity, err) := ReadEntity lib pubKeyFile
  checkError err
  logLine (.entity entity)
  return entity

/-- The preference lists assigned by SelfSign. -/
def selfSignPreferences (sig : Signature) : Signature :=
  { sig with
    PreferredSymmetric := [uint8 packet.CipherAES256, uint8 packet.CipherAES192,
      uint8 packet.CipherAES128, uint8 packet.CipherCAST5, uint8 packet.Cipher3DES]
    PreferredHash := [uint8 crypto.SHA256, uint8 crypto.SHA1, uint8 crypto.SHA384,
      uint8 crypto.SHA512, uint8 crypto.SHA224]
    PreferredCompression := [uint8 packet.CompressionZLIB, uint8 packet.CompressionZIP] }

/-- First loop of SelfSign, over key.Identities: the result is false when a
call of SignUserId panicked; the list is the state of the identities at that
point. -/
def signIdentities (lib : OpenPGP) (pub : PublicKey) (priv : Option PrivateKey)
    (config : Config) : List Identity → Bool × List Identity
  | [] => (true, [])
  | id :: rest =>
    let sig := selfSignPreferences id.SelfSignature
    match lib.signUserId sig id.UserId.Id pub priv config with
    | Result.crashed => (false, { id with SelfSignature := sig } :: rest)
    | Result.ret signed =>
      let r := signIdentities lib pub priv config rest
      (r.1, { id with SelfSignature := { sig with signed := signed.1 } } :: r.2)

/-- Second loop of SelfSign, over key.Subkeys. -/
def signSubkeys (lib : OpenPGP) (priv : Option PrivateKey) (config : Config) :
    List Subkey → Bool × List Subkey
  | [] => (true, [])
  | subkey :: rest =>
    match lib.signKey subkey.Sig subkey.PublicKey priv config with
    | Result.crashed => (false, subkey :: rest)
    | Result.ret signed =>
      let r := signSubkeys lib priv config rest
      (r.1, { subkey with Sig := { subkey.Sig with signed := signed.1 } } :: r.2)

/-- Method SelfSign. -/
def SelfSign (lib : OpenPGP) : Go (GpgRes × World) Unit := do
  let config : Config := { DefaultHash := crypto.SHA256 }
  liftW (logLine (.text "Sign Entity"))
  let obj ← getObj
  match obj.Entity with
  | none => crash
  | some key =>
    let ids := signIdentities lib key.PrimaryKey key.PrivateKey config key.Identities
    modifyObj (fun o => { o with Entity := some { key with Identities := ids.2 } })
    if ids.1 then
      let subs := signSubkeys lib key.PrivateKey config key.Subkeys
      modifyObj (fun o => { o with
        Entity := some { key with Identities := ids.2, Subkeys := subs.2 } })
      if subs.1 then pure () else crash
    else crash

/-- Method Init. -/
def Init (lib : OpenPGP) (adminPublicPath : String) : Go (GpgRes × World) Unit := do
  liftW (logLine (.text "TESTING PGP"))
  let config : Config := { DefaultHash := crypto.SHA256 }
  let obj ← getObj
  let (entity, err) := goPair (lib.newEntity obj.Name obj.Comment obj.Email config)
  modifyObj (fun o => { o with Entity := entity })
  match err with
  | some e => liftW (logLine (.error e))
  | none =>
    SelfSign lib
    let admin ← liftW (addAdminPubKey lib adminPublicPath)
    modifyObj (fun o => { o with Admin := admin })

/-- Function NewGpgRes: the result is the resource obj points to on return. -/
def NewGpgRes (lib : OpenPGP) (name email adminPublicPath : String) : Go World GpgRes :=
  fun w =>
    match logLine (.text "PGP: init PGP") w with
    | (_, w1) =>
      let obj : GpgRes := { Name := name, Comment := "", Email := email,
                            Entity := none, Admin := none }
      match Init lib adminPublicPath (obj, w1) with
      | (Result.ret _, (obj1, w2)) => (Result.ret obj1, w2)
      | (Result.crashed, (_, w2)) => (Result.crashed, w2)

/-- Method SavePubKey. -/
def SavePubKey (lib : OpenPGP) (pfx : String) : Go (GpgRes × World) Unit := do
  liftW (logLine (.text "PGP: Save Public key"))
  let file := pfx ++ "/PubGPG1.gpg"
  let (f, err) ← liftW (osCreate file)
  liftW (checkError err)
  let obj ← getObj
  match lib.serialize obj.Entity with
  | Result.crashed => crash
  | Result.ret written =>
    liftW (flushTo f written.1)
    liftW (logLine (.text "Create File"))

/-- Method CryptingMsg. After a failed Encrypt the writer w is nil and
w.Write dereferences it. -/
def CryptingMsg (lib : OpenPGP) (to_ : Option Entity) (msg : Bytes) :
    Go (GpgRes × World) Bytes := do
  let ents := [to_]
  liftW (logLine (.text "PGP: Crypting the test file"))
  let obj ← getObj
  let seed ← liftW drawRand
  match Encrypt lib seed ents obj.Entity with
  | Result.crashed => crash
  | Result.ret (.error e) =>
    liftW (checkError (some e))
    crash
  | Result.ret (.ok (w, buf0)) =>
    liftW (checkError none)
    let written := lib.write w msg
    liftW (checkError written.2)
    let closed := lib.close w msg
    liftW (checkError closed.2)
    return buf0 ++ written.1 ++ closed.1

/-- Method Crypt. -/
def Crypt (lib : OpenPGP) (to_ : Option Entity) (msg : Bytes) : Go (GpgRes × World) Bytes := do
  let buf ← CryptingMsg lib to_ msg
  liftW (checkError none)
  let encString := encodeToString buf
  liftW (logLine (.secret "Encrypted Secret:" encString))
  return encString

/-- Method WriteToAdmin. -/
def WriteToAdmin (lib : OpenPGP) (msg : Bytes) (pfx : String) : Go (GpgRes × World) Unit := do
  liftW (logLine (.text "PGP: Writing messages to Admin"))
  let file := pfx ++ "/MessageForAdmin.gpg"
  let obj ← getObj
  let buf ← CryptingMsg lib obj.Admin msg
  let (f, err) ← liftW (osCreate file)
  liftW (checkError err)
  liftW (flushTo f buf)
  liftW (logLine (.text "Create File"))

/-- Method Decrypt; on a failed ReadMessage md is nil and md.UnverifiedBody
dereferences it. -/
def Decrypt (lib : OpenPGP) (encString : Bytes) : Go (GpgRes × World) Bytes := do
  let obj ← getObj
  let entityList := [obj.Entity]
  liftW (logLine (.text "Decrypting the test file"))
  let (dec, err) := decodeString encString
  liftW (checkError err)
  match lib.readMessage dec entityList with
  | Result.crashed => crash
  | Result.ret (.error e) =>
    liftW (checkError (some e))
    crash
  | Result.ret (.ok md) =>
    liftW (checkError none)
    liftW (checkError md.readErr)
    return md.UnverifiedBody

/-- The two signing loops of SelfSign run to their end on the entity e. -/
def signingCompletes (lib : OpenPGP) (e : Entity) : Bool :=
  (signIdentities lib e.PrimaryKey e.PrivateKey { DefaultHash := crypto.SHA256 } e.Identities).1
    && (signSubkeys lib e.PrivateKey { DefaultHash := crypto.SHA256 } e.Subkeys).1

/-- The entity SelfSign leaves in obj.Entity when both loops run to their end. -/
def selfSigned (lib : OpenPGP) (e : Entity) : Entity :=
  { e with
    Identities :=
      (signIdentities lib e.PrimaryKey e.PrivateKey { DefaultHash := crypto.SHA256 } e.Identities).2
    Subkeys := (signSubkeys lib e.PrivateKey { DefaultHash := crypto.SHA256 } e.Subkeys).2 }

/-! ## A small instance of the library, for evaluating the program

Key material is a key id; a message is framed as: the number of recipients,
their key ids, one byte of session key (the state of the random source), the
plaintext, and a two byte trailer (254, key id of the signer) written by
Close. -/

/-- The self-signature NewEntity gives a new identity: no preference list. -/
def toySignature : Signature :=
  { PreferredSymmetric := [], PreferredHash := [], PreferredCompression := [],
    IsPrimaryId := true, signed := [] }

/-- The self-signature of a key made by GnuPG: AES-256, AES-192, AES-128, 3DES;
SHA-256, SHA-384, SHA-512, SHA-224, SHA-1; ZLIB, BZIP2, ZIP. -/
def gnupgSignature : Signature :=
  { PreferredSymmetric := [9, 8, 7, 2], PreferredHash := [8, 9, 10, 11, 2],
    PreferredCompression := [2, 3, 1], IsPrimaryId := true, signed := [1] }

/-- Function packet.NewUserId: the id "name (comment) <email>", where an empty
comment or email is left out and a blank is put only after a part present. -/
def toyUserId (name comment email : String) : UserId :=
  let id1 := name
  let id2 :=
    if comment = "" then id1
    else (if id1 = "" then id1 else id1 ++ " ") ++ "(" ++ comment ++ ")"
  let id3 :=
    if email = "" then id2
    else (if id2 = "" then id2 else id2 ++ " ") ++ "<" ++ email ++ ">"
  { Id := id3, Name := name, Comment := comment, Email := email }

/-- An entity with one identity and one subkey, with or without private keys. -/
def toyEntity (keyId : Nat) (name comment email : String) (withPrivate : Bool)
    (sig : Signature) : Entity :=
  let pub : PublicKey := { KeyId := keyId, bits := [] }
  let sub : PublicKey := { KeyId := keyId + 1, bits := [] }
  { PrimaryKey := pub
    PrivateKey := if withPrivate then some { PublicKey := pub, secret := [] } else none
    Identities := [{ Name := (toyUserId name comment email).Id
                     UserId := toyUserId name comment email
                     SelfSignature := sig
                     Signatures := [] }]
    Subkeys := [{ PublicKey := sub
                  PrivateKey := if withPrivate then some { PublicKey := sub, secret := [] } else none
                  Sig := { toySignature with IsPrimaryId := false } }] }

/-- Characters packet.NewUserId rejects in a user id field. -/
def invalidUserIdChar (c : Char) : Bool :=
  c = '(' || c = ')' || c = '<' || c = '>' || c.toNat = 0

def toyKeyIds (ents : List Entity) : Bytes :=
  ents.map (fun e => Fin.ofNat e.PrimaryKey.KeyId)

def toyCanDecrypt (ids : Bytes) (e : Option Entity) : Bool :=
  match e with
  | some e => e.PrivateKey.isSome && ids.contains (Fin.ofNat e.PrimaryKey.KeyId)
  | none => false

def toyBody (body : Bytes) : MessageDetails :=
  if body.length ≥ 2 ∧ body.getD (body.length - 2) 0 = 254 then
    { UnverifiedBody := body.take (body.length - 2), readErr := none }
  else { UnverifiedBody := body, readErr := some (.pgpError 8) }

def toy : OpenPGP where
  newEntity name comment email _ :=
    if (name.data ++ comment.data ++ email.data).any invalidUserIdChar then
      .error (.pgpError 1)
    else .ok (toyEntity name.length name comment email true toySignature)
  readEntity content :=
    match content with
    | [] => .error (.pgpError 2)
    | tag :: keyId :: _ =>
      if tag = 153 then
        .ok (toyEntity keyId.val "admin" "" "admin@example.com" false gnupgSignature)
      else .error (.pgpError 3)
    | [_] => .error (.pgpError 3)
  signUserId sig _ _ priv _ :=
    match priv with
    | none => Result.crashed
    | some _ => Result.ret
        ((sig.PreferredSymmetric ++ sig.PreferredHash ++ sig.PreferredCompression).map Fin.ofNat,
         none)
  signKey _ pub priv _ :=
    match priv with
    | none => Result.crashed
    | some _ => Result.ret ([Fin.ofNat pub.KeyId], none)
  serialize e :=
    match e with
    | none => Result.crashed
    | some e => Result.ret ([153, Fin.ofNat e.PrimaryKey.KeyId], none)
  signerError s :=
    if s.PrivateKey.isNone then some (.invalidArgument "no private key in signing key")
    else none
  hasEncryptionKey e := !e.Subkeys.isEmpty
  encrypt w :=
    .ok (Fin.ofNat w.recipients.length :: toyKeyIds w.recipients ++ [Fin.ofNat w.seed])
  write _ msg := (msg, none)
  close w _ :=
    match w.signed with
    | none => ([254, 0], none)
    | some s =>
      if s.PrivateKey.map (fun k => k.PublicKey.KeyId) = some s.PrimaryKey.KeyId then
        ([254, Fin.ofNat s.PrimaryKey.KeyId], none)
      else ([], some (.pgpError 6))
  readMessage content keyring :=
    match content with
    | [] => Result.ret (.error (.pgpError 2))
    | n :: rest =>
      if n.val = 0 ∨ rest.length ≤ n.val then Result.ret (.error (.pgpError 3))
      else if keyring.any Option.isNone then Result.crashed
      else if keyring.any (toyCanDecrypt (rest.take n.val)) then
        Result.ret (.ok (toyBody (rest.drop (n.val + 1))))
      else Result.ret (.error (.pgpError 7))

/-- The world at start: one valid admin key file, nothing logged. -/
def w0 : World :=
  { files := [("/etc/admin.gpg", [153, 9])], locked := [], log := [], rand := 42 }

/-- A world whose admin key file is truncated after its first byte. -/
def wTruncated : World :=
  { files := [("/etc/admin.gpg", [153])], locked := [], log := [], rand := 42 }

/-- The entity NewEntity returns for Alice. -/
def aliceEntity : Entity := toyEntity 5 "Alice" "" "alice@example.com" true toySignature

/-- The entity ReadEntity returns for the admin key file of w0. -/
def adminEntity : Entity := toyEntity 9 "admin" "" "admin@example.com" false gnupgSignature

/-- The resource NewGpgRes builds for Alice in w0. -/
def alice : GpgRes :=
  { Name := "Alice", Comment := "", Email := "alice@example.com"
    Entity := some (selfSigned toy aliceEntity)
    Admin := some adminEntity }

/-- The resource of Alice inside Init, after NewEntity and before SelfSign. -/
def aliceUnsigned : GpgRes :=
  { Name := "Alice", Comment := "", Email := "alice@example.com"
    Entity := some aliceEntity
    Admin := none }

/-- An entity with two user identity bindings whose preference lists are
already filled. -/
def twoIdentities : Entity :=
  { aliceEntity with
    Identities :=
      [{ Name := "Alice <alice@example.com>"
         UserId := toyUserId "Alice" "" "alice@example.com"
         SelfSignature := { toySignature with PreferredSymmetric := [2], PreferredCompression := [0] }
         Signatures := [] },
       { Name := "Alice (work) <alice@example.com>"
         UserId := toyUserId "Alice" "work" "alice@example.com"
         SelfSignature := { toySignature with PreferredSymmetric := [7, 9], PreferredHash := [2],
                                              IsPrimaryId := false }
         Signatures := [] }] }

/-- A resource whose entity holds a private key that does not belong to its
primary key: the library cannot produce its signature at Close. -/
def bob : GpgRes :=
  { Name := "Bob", Comment := "", Email := "bob@example.com"
    Entity := some { toyEntity 3 "Bob" "" "bob@example.com" true toySignature with
      PrivateKey := some { PublicKey := { KeyId := 4, bits := [] }, secret := [] } }
    Admin := some adminEntity }

/-- The plaintext "hello". -/
def hello : Bytes := [104, 101, 108, 108, 111]

/-- A container addressed to Alice (key id 5) and signed with key 9, holding
"hello". -/
def forAlice : Bytes := [1, 5, 77, 104, 101, 108, 108, 111, 254, 9]

/-! ## base64: decoding undoes encoding -/

theorem decodeMap_encChar : ∀ i : Fin 64, decodeMap (encChar i.val) = i.val ∧ decodeMap (encChar i.val) ≠ 0xff := by
  decide

theorem decodeMap_encChar_mod (n : Nat) : decodeMap (encChar (n % 64)) = n % 64 :=
  (decodeMap_encChar ⟨n % 64, Nat.mod_lt _ (by decide)⟩).1

theorem decodeMap_encChar_ne (n : Nat) : decodeMap (encChar (n % 64)) ≠ 255 := by
  rw [decodeMap_encChar_mod]; omega

theorem decode_step (n : Nat) (rest : Bytes) (si j : Nat) (dbuf : List Nat) (out : Bytes) :
    decodeFrom (encChar (n % 64) :: rest) si j dbuf out =
      if j = 3 then decodeFrom rest (si + 1) 0 [] (out ++ assemble (dbuf ++ [n % 64]) 4)
      else decodeFrom rest (si + 1) (j + 1) (dbuf ++ [n % 64]) out := by
  rw [decodeFrom]
  simp only [decodeMap_encChar_mod]
  have : n % 64 ≠ 255 := by omega
  simp [this]

theorem byte_ofNat (b : Byte) (n : Nat) (h : n % 256 = b.val) : (Fin.ofNat n : Byte) = b := by
  apply Fin.ext
  simpa [Fin.ofNat] using h

theorem decodeMap_padChar : decodeMap padChar = 0xff := by decide

theorem isNewline_padChar : isNewline padChar = false := by decide

theorem decode_pad3 (si : Nat) (dbuf : List Nat) (out : Bytes) :
    decodeFrom [padChar] si 3 dbuf out = (out ++ assemble dbuf 3, none) := by
  simp [decodeFrom, decodeMap_padChar, isNewline_padChar, finishPadding, skipNewlines]

theorem decode_pad2 (si : Nat) (dbuf : List Nat) (out : Bytes) :
    decodeFrom [padChar, padChar] si 2 dbuf out = (out ++ assemble dbuf 2, none) := by
  simp [decodeFrom, decodeMap_padChar, isNewline_padChar, finishPadding, skipNewlines]

theorem decode_encode (bs : Bytes) : ∀ (si : Nat) (out : Bytes),
    decodeFrom (encodeToString bs) si 0 [] out = (out ++ bs, none) := by
  induction bs using encodeToString.induct with
  | case1 b0 b1 b2 rest ih =>
    intro si out
    simp only [encodeToString, decode_step]
    simp only [List.nil_append, List.cons_append, Nat.zero_add, Nat.reduceAdd, Nat.reduceEqDiff, if_false, if_true, ih]
    have h0 := b0.isLt; have h1 := b1.isLt; have h2 := b2.isLt
    simp only [assemble, List.getD_cons_zero, List.getD_cons_succ, Nat.reduceSub, List.take]
    rw [byte_ofNat b0 _ (by omega), byte_ofNat b1 _ (by omega), byte_ofNat b2 _ (by omega)]
    simp
  | case2 b0 b1 =>
    intro si out
    simp only [encodeToString, decode_step]
    simp only [List.nil_append, List.cons_append, Nat.zero_add, Nat.reduceAdd, Nat.reduceEqDiff, if_false]
    rw [decode_pad3]
    have h0 := b0.isLt; have h1 := b1.isLt
    simp only [assemble, List.getD_cons_zero, List.getD_cons_succ, Nat.reduceSub, List.take,
      List.getD_nil]
    rw [byte_ofNat b0 _ (by omega), byte_ofNat b1 _ (by omega)]
  | case3 b0 =>
    intro si out
    simp only [encodeToString, decode_step]
    simp only [List.nil_append, List.cons_append, Nat.zero_add, Nat.reduceAdd, Nat.reduceEqDiff, if_false]
    rw [decode_pad2]
    have h0 := b0.isLt
    simp only [assemble, List.getD_cons_zero, List.getD_cons_succ, Nat.reduceSub, List.take,
      List.getD_nil]
    rw [byte_ofNat b0 _ (by omega)]
  | case4 =>
    intro si out
    simp [encodeToString, decodeFrom]

theorem decodeString_encodeToString (bs : Bytes) :
    decodeString (encodeToString bs) = (bs, none) := by
  simpa [decodeString] using decode_encode bs 0 []

theorem decode_pad3_rest (rest : Bytes) (si : Nat) (dbuf : List Nat) (out : Bytes) :
    decodeFrom (padChar :: rest) si 3 dbuf out = finishPadding rest (si + 1) dbuf 3 out := by
  simp [decodeFrom, decodeMap_padChar, isNewline_padChar]

theorem decode_pad2_rest (rest : Bytes) (si : Nat) (dbuf : List Nat) (out : Bytes) :
    decodeFrom (padChar :: padChar :: rest) si 2 dbuf out
      = finishPadding rest (si + 1 + 1) dbuf 2 out := by
  simp [decodeFrom, decodeMap_padChar, isNewline_padChar, skipNewlines]

theorem finishPadding_garbage (c : Byte) (rest : Bytes) (hn : isNewline c = false) (si : Nat)
    (dbuf : List Nat) (j : Nat) (out : Bytes) :
    finishPadding (c :: rest) si dbuf j out
      = (out ++ assemble dbuf j, some (.corruptInput si)) := by
  simp [finishPadding, skipNewlines, hn]

theorem decode_encode_garbage (c : Byte) (rest : Bytes) (hc : decodeMap c = 0xff)
    (hn : isNewline c = false) (bs : Bytes) : ∀ (si : Nat) (out : Bytes),
    ∃ k, decodeFrom (encodeToString bs ++ c :: rest) si 0 [] out
      = (out ++ bs, some (.corruptInput k)) := by
  induction bs using encodeToString.induct with
  | case1 b0 b1 b2 tail ih =>
    intro si out
    simp only [encodeToString, List.cons_append, decode_step]
    simp only [List.nil_append, List.cons_append, Nat.zero_add, Nat.reduceAdd, Nat.reduceEqDiff,
      if_false, if_true]
    obtain ⟨k, hk⟩ := ih (si + 1 + 1 + 1 + 1)
      (out ++ assemble [(b0.val * 65536 + b1.val * 256 + b2.val) / 262144 % 64,
        (b0.val * 65536 + b1.val * 256 + b2.val) / 4096 % 64,
        (b0.val * 65536 + b1.val * 256 + b2.val) / 64 % 64,
        (b0.val * 65536 + b1.val * 256 + b2.val) % 64] 4)
    refine ⟨k, ?_⟩
    rw [hk]
    have h0 := b0.isLt; have h1 := b1.isLt; have h2 := b2.isLt
    simp only [assemble, List.getD_cons_zero, List.getD_cons_succ, Nat.reduceSub, List.take]
    rw [byte_ofNat b0 _ (by omega), byte_ofNat b1 _ (by omega), byte_ofNat b2 _ (by omega)]
    simp
  | case2 b0 b1 =>
    intro si out
    simp only [encodeToString, List.cons_append, List.nil_append, decode_step]
    simp only [List.nil_append, List.cons_append, Nat.zero_add, Nat.reduceAdd, Nat.reduceEqDiff,
      if_false]
    rw [decode_pad3_rest, finishPadding_garbage c rest hn]
    refine ⟨si + 1 + 1 + 1 + 1, ?_⟩
    have h0 := b0.isLt; have h1 := b1.isLt
    simp only [assemble, List.getD_cons_zero, List.getD_cons_succ, Nat.reduceSub, List.take,
      List.getD_nil]
    rw [byte_ofNat b0 _ (by omega), byte_ofNat b1 _ (by omega)]
  | case3 b0 =>
    intro si out
    simp only [encodeToString, List.cons_append, List.nil_append, decode_step]
    simp only [List.nil_append, List.cons_append, Nat.zero_add, Nat.reduceAdd, Nat.reduceEqDiff,
      if_false]
    rw [decode_pad2_rest, finishPadding_garbage c rest hn]
    refine ⟨si + 1 + 1 + 1 + 1, ?_⟩
    have h0 := b0.isLt
    simp only [assemble, List.getD_cons_zero, List.getD_cons_succ, Nat.reduceSub, List.take,
      List.getD_nil]
    rw [byte_ofNat b0 _ (by omega)]
  | case4 =>
    intro si out
    refine ⟨si, ?_⟩
    by_cases hp : c = padChar
    · subst hp
      simp [encodeToString, decodeFrom, decodeMap_padChar, isNewline_padChar]
    · simp [encodeToString, decodeFrom, hc, hn, hp]

/-- A valid base64 text followed by a byte that is neither of the alphabet nor
a newline, and by anything more: DecodeString returns all the bytes of the
valid text together with a CorruptInputError. -/
theorem decodeString_valid_then_garbage (bs : Bytes) (c : Byte) (rest : Bytes)
    (hc : decodeMap c = 0xff) (hn : isNewline c = false) :
    ∃ k, decodeString (encodeToString bs ++ c :: rest) = (bs, some (.corruptInput k)) := by
  obtain ⟨k, hk⟩ := decode_encode_garbage c rest hc hn bs 0 []
  exact ⟨k, by simpa [decodeString] using hk⟩

theorem encodeToString_length (bs : Bytes) :
    (encodeToString bs).length = 4 * ((bs.length + 2) / 3) := by
  induction bs using encodeToString.induct with
  | case1 b0 b1 b2 tail ih => simp only [encodeToString, List.length_cons, ih]; omega
  | case2 b0 b1 => simp [encodeToString]
  | case3 b0 => simp [encodeToString]
  | case4 => simp [encodeToString]

theorem encodeToString_ne_self (bs : Bytes) (h : bs ≠ []) : encodeToString bs ≠ bs := by
  intro heq
  have hl := encodeToString_length bs
  rw [heq] at hl
  have : 0 < bs.length := List.length_pos.2 h
  omega

/-! ## Running the methods -/

theorem CryptingMsg_run (lib : OpenPGP) (to_ : Option Entity) (msg buf0 : Bytes)
    (wr : EncWriter) (obj : GpgRes) (w : World)
    (hinit : Encrypt lib w.rand [to_] obj.Entity = Result.ret (.ok (wr, buf0))) :
    ∃ w1, CryptingMsg lib to_ msg (obj, w) =
        (Result.ret (buf0 ++ (lib.write wr msg).1 ++ (lib.close wr msg).1), (obj, w1))
      ∧ w1.files = w.files ∧ w1.locked = w.locked
      ∧ (∀ e, (lib.write wr msg).2 = some e → LogEntry.error e ∈ w1.log)
      ∧ (∀ e, (lib.close wr msg).2 = some e → LogEntry.error e ∈ w1.log) := by
  cases hw : (lib.write wr msg).2 <;> cases hc : (lib.close wr msg).2 <;>
    simp [CryptingMsg, bind, Go.bind, pure, Go.pure, liftW, getObj, logLine, drawRand,
      checkError, hinit, hw, hc]

theorem Crypt_run (lib : OpenPGP) (to_ : Option Entity) (msg buf0 : Bytes)
    (wr : EncWriter) (obj : GpgRes) (w : World)
    (hinit : Encrypt lib w.rand [to_] obj.Entity = Result.ret (.ok (wr, buf0))) :
    ∃ w1, Crypt lib to_ msg (obj, w) =
        (Result.ret (encodeToString (buf0 ++ (lib.write wr msg).1 ++ (lib.close wr msg).1)),
          (obj, w1))
      ∧ w1.files = w.files ∧ w1.locked = w.locked := by
  obtain ⟨w1, h1, hf, hl, _, _⟩ := CryptingMsg_run lib to_ msg buf0 wr obj w hinit
  simp [Crypt, bind, Go.bind, pure, Go.pure, liftW, logLine, checkError, h1, hf, hl]

theorem CryptingMsg_crashes (lib : OpenPGP) (to_ : Option Entity) (msg : Bytes)
    (obj : GpgRes) (w : World) (err : GoError)
    (hinit : Encrypt lib w.rand [to_] obj.Entity = Result.ret (.error err)) :
    CryptingMsg lib to_ msg (obj, w) =
      (Result.crashed, (obj, { w with
        log := w.log ++ [LogEntry.text "PGP: Crypting the test file", LogEntry.error err],
        rand := w.rand + 1 })) := by
  simp [CryptingMsg, bind, Go.bind, pure, Go.pure, liftW, getObj, logLine, drawRand,
    checkError, crash, hinit]

theorem primaryIdentity_mem (e : Entity) (h : e.Identities ≠ []) :
    ∃ id, primaryIdentity e = some id ∧ id ∈ e.Identities := by
  unfold primaryIdentity
  cases hf : e.Identities.find? (fun id => id.SelfSignature.IsPrimaryId) with
  | some id => exact ⟨id, rfl, List.mem_of_find?_eq_some hf⟩
  | none =>
    cases hl : e.Identities with
    | nil => exact absurd hl h
    | cons id rest => exact ⟨id, by simp, by simp⟩

theorem chooseHash_ripemd160 : chooseHash [3] = none := by decide

theorem intersect_crypto_Hash_values :
    intersectPreferences candidateHashes [5, 3, 6, 7, 4] = [3] := by decide

/-- For a recipient whose identities all state PreferredHash = 5, 3, 6, 7, 4,
the set-up of Encrypt fails whatever the library does: either an earlier
check fails, or the only common hash identifier is 3 (RIPEMD-160), which is
not linked in. -/
theorem Encrypt_fails_on_crypto_Hash_values (lib : OpenPGP) (seed : Nat) (e : Entity)
    (signed : Option Entity) (hid : e.Identities ≠ [])
    (hpref : ∀ id ∈ e.Identities, id.SelfSignature.PreferredHash = [5, 3, 6, 7, 4]) :
    ∃ err, Encrypt lib seed [some e] signed = Result.ret (.error err) := by
  obtain ⟨id, hprim, hmem⟩ := primaryIdentity_mem e hid
  have hp := hpref id hmem
  unfold Encrypt
  cases hs : signed.bind lib.signerError with
  | some err => exact ⟨err, rfl⟩
  | none =>
    cases hk : lib.hasEncryptionKey e with
    | false =>
      have hneg : negotiate lib [some e] candidateCiphers candidateHashes
          = Result.ret (.error (.invalidArgument
            "cannot encrypt a message to a key because it has no encryption keys")) := by
        simp [negotiate, hk]
      simp only [hneg]
      exact ⟨_, rfl⟩
    | true =>
      have hneg : negotiate lib [some e] candidateCiphers candidateHashes
          = Result.ret (.ok ([e], intersectPreferences candidateCiphers
              (if id.SelfSignature.PreferredSymmetric.length = 0 then defaultCiphers
                else id.SelfSignature.PreferredSymmetric), [3])) := by
        simp [negotiate, hk, hprim, hp, intersect_crypto_Hash_values]
      simp only [hneg]
      by_cases hc : (intersectPreferences candidateCiphers
          (if id.SelfSignature.PreferredSymmetric.length = 0 then defaultCiphers
            else id.SelfSignature.PreferredSymmetric)).length = 0
      · rw [if_pos (Or.inl hc)]
        exact ⟨_, rfl⟩
      · rw [if_neg (by
          intro h
          rcases h with h | h
          · exact hc h
          · simp at h)]
        simp only [chooseHash_ripemd160]
        exact ⟨_, rfl⟩

theorem Decrypt_run (lib : OpenPGP) (encString : Bytes) (obj : GpgRes) (w : World)
    (md : MessageDetails)
    (hread : lib.readMessage (decodeString encString).1 [obj.Entity] = Result.ret (.ok md)) :
    ∃ w1, Decrypt lib encString (obj, w) = (Result.ret md.UnverifiedBody, (obj, w1)) := by
  cases hd : (decodeString encString).2 <;> cases hr : md.readErr <;>
    simp [Decrypt, bind, Go.bind, pure, Go.pure, liftW, getObj, logLine, checkError, hread,
      hd, hr]

theorem signIdentities_spec (lib : OpenPGP) (pub : PublicKey) (priv : Option PrivateKey)
    (config : Config) (ids : List Identity)
    (h : (signIdentities lib pub priv config ids).1 = true) :
    (signIdentities lib pub priv config ids).2.map (fun id => id.Name) = ids.map (fun id => id.Name)
    ∧ ∀ id ∈ (signIdentities lib pub priv config ids).2,
        id.SelfSignature.PreferredSymmetric = [9, 8, 7, 3, 2]
        ∧ id.SelfSignature.PreferredHash = [5, 3, 6, 7, 4]
        ∧ id.SelfSignature.PreferredCompression = [2, 1] := by
  induction ids with
  | nil => simp [signIdentities]
  | cons id rest ih =>
    rw [signIdentities] at h ⊢
    cases hs : lib.signUserId (selfSignPreferences id.SelfSignature) id.UserId.Id pub priv config with
    | crashed => simp [hs] at h
    | ret signed =>
      simp only [hs] at h ⊢
      obtain ⟨ihn, ihp⟩ := ih h
      refine ⟨by simp [ihn], ?_⟩
      intro x hx
      rcases List.mem_cons.1 hx with hx | hx
      · subst hx
        simp [selfSignPreferences, uint8, packet.CipherAES256, packet.CipherAES192,
          packet.CipherAES128, packet.CipherCAST5, packet.Cipher3DES, crypto.SHA256, crypto.SHA1,
          crypto.SHA384, crypto.SHA512, crypto.SHA224, packet.CompressionZLIB,
          packet.CompressionZIP]
      · exact ihp x hx

theorem SelfSign_run (lib : OpenPGP) (obj : GpgRes) (w : World) (e : Entity)
    (hE : obj.Entity = some e) (hsign : signingCompletes lib e = true) :
    SelfSign lib (obj, w) =
      (Result.ret (), ({ obj with Entity := some (selfSigned lib e) },
        { w with log := w.log ++ [LogEntry.text "Sign Entity"] })) := by
  simp only [signingCompletes, Bool.and_eq_true] at hsign
  simp [SelfSign, bind, Go.bind, pure, Go.pure, liftW, getObj, modifyObj, logLine, hE, hsign.1,
    hsign.2, selfSigned]

theorem addAdminPubKey_fails (lib : OpenPGP) (path : String) (w : World)
    (hfail : w.files.lookup path = none
      ∨ ∃ content err, w.files.lookup path = some content ∧ lib.readEntity content = .error err) :
    ∃ err, addAdminPubKey lib path w =
      (Result.ret none, { w with log := w.log ++ [LogEntry.text "PGP: Admin pub Key file",
        LogEntry.error err, LogEntry.entity none] }) := by
  rcases hfail with h | ⟨content, err, h, hr⟩
  · exact ⟨.osError 22, by
      simp [addAdminPubKey, bind, Go.bind, pure, Go.pure, logLine, osOpen, h, ReadEntity,
        checkError]⟩
  · exact ⟨err, by
      simp [addAdminPubKey, bind, Go.bind, pure, Go.pure, logLine, osOpen, h, ReadEntity, hr,
        goPair, checkError]⟩

theorem WriteToAdmin_run (lib : OpenPGP) (msg buf0 : Bytes) (wr : EncWriter) (pfx : String)
    (obj : GpgRes) (w : World)
    (hinit : Encrypt lib w.rand [obj.Admin] obj.Entity = Result.ret (.ok (wr, buf0)))
    (hfile : pfx ++ "/MessageForAdmin.gpg" ∉ w.locked) :
    ∃ w1, WriteToAdmin lib msg pfx (obj, w) = (Result.ret (), (obj, w1))
      ∧ w1.files.lookup (pfx ++ "/MessageForAdmin.gpg") =
        some (buf0 ++ (lib.write wr msg).1 ++ (lib.close wr msg).1)
      ∧ w1.rand = w.rand + 1 := by
  cases hw : (lib.write wr msg).2 <;> cases hc : (lib.close wr msg).2 <;>
    simp [WriteToAdmin, CryptingMsg, bind, Go.bind, pure, Go.pure, liftW, getObj, logLine,
      drawRand, checkError, hinit, hw, hc, osCreate, hfile, flushTo, List.lookup]

/-- A valid base64 text followed by a byte that is neither of the alphabet nor
a newline (and by anything more) is not valid base64, and Decrypt returns on
it the body of the message the valid text encodes. -/
theorem Decrypt_valid_text_then_garbage (lib : OpenPGP) (obj : GpgRes) (w : World)
    (bs : Bytes) (c : Byte) (rest : Bytes) (md : MessageDetails)
    (hc : decodeMap c = 0xff) (hn : isNewline c = false)
    (hread : lib.readMessage bs [obj.Entity] = Result.ret (.ok md)) :
    (∃ k, (decodeString (encodeToString bs ++ c :: rest)).2 = some (.corruptInput k))
    ∧ (Decrypt lib (encodeToString bs ++ c :: rest) (obj, w)).1
      = Result.ret md.UnverifiedBody := by
  obtain ⟨k, hk⟩ := decodeString_valid_then_garbage bs c rest hc hn
  obtain ⟨w1, h1⟩ := Decrypt_run lib (encodeToString bs ++ c :: rest) obj w md
    (by rw [hk]; exact hread)
  exact ⟨⟨k, by rw [hk]⟩, by rw [h1]⟩

theorem CryptingMsg_receiver (lib : OpenPGP) (to_ : Option Entity) (msg : Bytes) (obj : GpgRes)
    (w : World) : (CryptingMsg lib to_ msg (obj, w)).2.1 = obj := by
  rcases hr : Encrypt lib w.rand [to_] obj.Entity with (e | ⟨wr, buf0⟩) | _ <;>
    [skip; (cases hw : (lib.write wr msg).2 <;> cases hc : (lib.close wr msg).2); skip] <;>
    simp [CryptingMsg, bind, Go.bind, pure, Go.pure, liftW, getObj, logLine, drawRand,
      checkError, crash, hr, *]

theorem Crypt_receiver (lib : OpenPGP) (to_ : Option Entity) (msg : Bytes) (obj : GpgRes)
    (w : World) : (Crypt lib to_ msg (obj, w)).2.1 = obj := by
  have h := CryptingMsg_receiver lib to_ msg obj w
  rcases hr : CryptingMsg lib to_ msg (obj, w) with ⟨r, o, w1⟩
  rw [hr] at h
  simp only at h
  subst h
  cases r <;> simp [Crypt, bind, Go.bind, pure, Go.pure, liftW, logLine, checkError, hr]

theorem WriteToAdmin_receiver (lib : OpenPGP) (msg : Bytes) (pfx : String) (obj : GpgRes)
    (w : World) : (WriteToAdmin lib msg pfx (obj, w)).2.1 = obj := by
  have h := CryptingMsg_receiver lib obj.Admin msg obj
    { w with log := w.log ++ [LogEntry.text "PGP: Writing messages to Admin"] }
  rcases hr : CryptingMsg lib obj.Admin msg
    (obj, { w with log := w.log ++ [LogEntry.text "PGP: Writing messages to Admin"] })
    with ⟨r, o, w1⟩
  rw [hr] at h
  simp only at h
  subst h
  cases r <;> by_cases hl : pfx ++ "/MessageForAdmin.gpg" ∈ w1.locked <;>
    simp [WriteToAdmin, bind, Go.bind, pure, Go.pure, liftW, getObj, logLine, checkError, hr,
      osCreate, flushTo, hl]

theorem Decrypt_receiver (lib : OpenPGP) (encString : Bytes) (obj : GpgRes) (w : World) :
    (Decrypt lib encString (obj, w)).2.1 = obj := by
  cases hd : (decodeString encString).2 <;>
    rcases hr : lib.readMessage (decodeString encString).1 [obj.Entity] with (e | md) | _ <;>
    [skip; cases hm : md.readErr; skip; skip; cases hm : md.readErr; skip] <;>
    simp [Decrypt, bind, Go.bind, pure, Go.pure, liftW, getObj, logLine, checkError, crash,
      hr, hd, *]

theorem filter_ne_idem (path : String) (fs : List (String × Bytes)) :
    (fs.filter (fun f => f.1 != path)).filter (fun f => f.1 != path)
      = fs.filter (fun f => f.1 != path) := by
  simp [List.filter_filter]

theorem SavePubKey_run (lib : OpenPGP) (pfx : String) (obj : GpgRes) (w : World) :
    SavePubKey lib pfx (obj, w) =
      let w1 : World := { w with log := w.log ++ [LogEntry.text "PGP: Save Public key"] }
      let file := pfx ++ "/PubGPG1.gpg"
      let rest := w.files.filter (fun f => f.1 != file)
      if file ∈ w.locked then
        match lib.serialize obj.Entity with
        | Result.crashed =>
          (Result.crashed, (obj, { w1 with log := w1.log ++ [LogEntry.error (.osError 13)] }))
        | Result.ret _ =>
          (Result.ret (), (obj,
            { w1 with log := w1.log ++ [LogEntry.error (.osError 13), LogEntry.text "Create File"] }))
      else
        match lib.serialize obj.Entity with
        | Result.crashed => (Result.crashed, (obj, { w1 with files := (file, []) :: rest }))
        | Result.ret written =>
          (Result.ret (), (obj,
            { files := (file, written.1) :: rest, locked := w.locked,
              log := w1.log ++ [LogEntry.text "Create File"], rand := w.rand })) := by
  by_cases hl : pfx ++ "/PubGPG1.gpg" ∈ w.locked <;>
    cases hs : lib.serialize obj.Entity <;>
    simp [SavePubKey, bind, Go.bind, pure, Go.pure, liftW, getObj, logLine, checkError, crash,
      osCreate, flushTo, hl, hs, List.filter_filter]

/-! ## Claims -/

/-- C1 (the code departs from the claim). For a resource whose entity went
through SelfSign, Crypt(obj.Entity, P) never returns, so the round trip
Decrypt(Crypt(obj.Entity, P)) == P does not hold for any P: every identity of
the entity states PreferredHash = 5, 3, 6, 7, 4, the set-up of openpgp.Encrypt
fails on these (the only hash identifier left is 3, RIPEMD-160, which is not
linked in), the error is only printed, and w.Write dereferences the nil
writer. -/
theorem Crypt_to_own_entity_panics (lib : OpenPGP) (obj : GpgRes) (w : World) (e0 : Entity)
    (P : Bytes)
    (hid : e0.Identities ≠ [])
    (hsign : signingCompletes lib e0 = true)
    (hE : obj.Entity = some (selfSigned lib e0)) :
    (∀ id ∈ (selfSigned lib e0).Identities, id.SelfSignature.PreferredHash = [5, 3, 6, 7, 4])
    ∧ (∃ err, Encrypt lib w.rand [obj.Entity] obj.Entity = Result.ret (.error err))
    ∧ (CryptingMsg lib obj.Entity P (obj, w)).1 = Result.crashed
    ∧ (Crypt lib obj.Entity P (obj, w)).1 = Result.crashed := by
  simp only [signingCompletes, Bool.and_eq_true] at hsign
  obtain ⟨hn, hp⟩ := signIdentities_spec lib e0.PrimaryKey e0.PrivateKey
    { DefaultHash := crypto.SHA256 } e0.Identities hsign.1
  have hpref : ∀ id ∈ (selfSigned lib e0).Identities,
      id.SelfSignature.PreferredHash = [5, 3, 6, 7, 4] := fun id h => (hp id h).2.1
  have hne : (selfSigned lib e0).Identities ≠ [] := by
    intro h
    have h1 : (selfSigned lib e0).Identities.map (fun id => id.Name) = [] := by rw [h]; rfl
    have h2 : e0.Identities.map (fun id => id.Name) = [] := by rw [← hn]; exact h1
    exact hid (List.map_eq_nil_iff.1 h2)
  obtain ⟨err, herr⟩ := Encrypt_fails_on_crypto_Hash_values lib w.rand (selfSigned lib e0)
    obj.Entity hne hpref
  rw [← hE] at herr
  have hc := CryptingMsg_crashes lib obj.Entity P obj w err herr
  refine ⟨hpref, ⟨err, herr⟩, by rw [hc], ?_⟩
  simp [Crypt, bind, Go.bind, hc]

theorem Crypt_to_own_entity_panics_witness :
    (NewGpgRes toy "Alice" "alice@example.com" "/etc/admin.gpg" w0).1 = Result.ret alice
    ∧ Crypt toy alice.Entity hello (alice, w0) =
      (Result.crashed, (alice, { w0 with
        log := [LogEntry.text "PGP: Crypting the test file",
          LogEntry.error (.invalidArgument
            ("cannot encrypt because no candidate hash functions are compiled in. "
              ++ "(Wanted RIPEMD160 in this case.)"))],
        rand := 43 }))
    ∧ (∀ id ∈ (selfSigned toy aliceEntity).Identities,
        id.SelfSignature.PreferredHash = [5, 3, 6, 7, 4])
    ∧ (∃ err, Encrypt toy w0.rand [alice.Entity] alice.Entity = Result.ret (.error err))
    ∧ (CryptingMsg toy alice.Entity hello (alice, w0)).1 = Result.crashed
    ∧ (Crypt toy alice.Entity hello (alice, w0)).1 = Result.crashed :=
  ⟨by decide, by decide,
    Crypt_to_own_entity_panics toy alice w0 aliceEntity hello (by decide) (by decide) rfl⟩

/-- C2 (the code departs from the claim). SelfSign stores in PreferredHash the
values uint8(crypto.SHA256), uint8(crypto.SHA1), uint8(crypto.SHA384),
uint8(crypto.SHA512), uint8(crypto.SHA224) of the Go type crypto.Hash, which
are 5, 3, 6, 7, 4; the OpenPGP identifiers of these algorithms, given by the
table of openpgp/s2k, are 8, 2, 9, 10, 11. Evaluated on the entity of Alice,
SelfSign leaves the list 5, 3, 6, 7, 4 in her self-signature. -/
theorem SelfSign_preferredHash_is_crypto_Hash :
    (∀ sig : Signature, (selfSignPreferences sig).PreferredHash = [5, 3, 6, 7, 4])
    ∧ [crypto.SHA256, crypto.SHA1, crypto.SHA384, crypto.SHA512, crypto.SHA224].map
        s2k.HashToHashId = [some 8, some 2, some 9, some 10, some 11]
    ∧ (SelfSign toy (aliceUnsigned, w0)).1 = Result.ret ()
    ∧ (SelfSign toy (aliceUnsigned, w0)).2.1.Entity.map
        (fun e => e.Identities.map (fun id => id.SelfSignature.PreferredHash))
        = some [[5, 3, 6, 7, 4]] :=
  ⟨fun _ => rfl, by decide, by decide, by decide⟩

/-- C3. When the signing calls of SelfSign return on the entity e of the
resource, SelfSign returns and leaves an entity with the same user identity
bindings in which every binding has PreferredSymmetric = 9, 8, 7, 3, 2
(AES-256, AES-192, AES-128, CAST5, 3DES) and PreferredCompression = 2, 1
(ZLIB, ZIP), whatever the lists held before. -/
theorem SelfSign_preferredSymmetric_preferredCompression (lib : OpenPGP) (obj : GpgRes)
    (w : World) (e : Entity) (hE : obj.Entity = some e)
    (hsign : signingCompletes lib e = true) :
    ∃ e1 w1, SelfSign lib (obj, w) = (Result.ret (), ({ obj with Entity := some e1 }, w1))
      ∧ e1.Identities.map (fun id => id.Name) = e.Identities.map (fun id => id.Name)
      ∧ ∀ id ∈ e1.Identities,
          id.SelfSignature.PreferredSymmetric = [9, 8, 7, 3, 2]
          ∧ id.SelfSignature.PreferredCompression = [2, 1] := by
  refine ⟨selfSigned lib e, _, SelfSign_run lib obj w e hE hsign, ?_⟩
  simp only [signingCompletes, Bool.and_eq_true] at hsign
  obtain ⟨hn, hp⟩ := signIdentities_spec lib e.PrimaryKey e.PrivateKey
    { DefaultHash := crypto.SHA256 } e.Identities hsign.1
  exact ⟨hn, fun id hid => ⟨(hp id hid).1, (hp id hid).2.2⟩⟩

theorem SelfSign_preferredSymmetric_preferredCompression_witness :
    signingCompletes toy twoIdentities = true
    ∧ ∃ e1 w1, SelfSign toy ({ aliceUnsigned with Entity := some twoIdentities }, w0) =
          (Result.ret (), ({ aliceUnsigned with Entity := some e1 }, w1))
      ∧ e1.Identities.map (fun id => id.Name) = ["Alice <alice@example.com>", "Alice (work) <alice@example.com>"]
      ∧ ∀ id ∈ e1.Identities,
          id.SelfSignature.PreferredSymmetric = [9, 8, 7, 3, 2]
          ∧ id.SelfSignature.PreferredCompression = [2, 1] :=
  ⟨by decide, SelfSign_preferredSymmetric_preferredCompression toy
    { aliceUnsigned with Entity := some twoIdentities } w0 twoIdentities rfl (by decide)⟩

/-- C4, as the code has it. When the admin key is present, Encrypt sets up the
encryption to it and the file can be created, WriteToAdmin writes to the file
MessageForAdmin.gpg of the given directory the binary container that its own
call of CryptingMsg(obj.Admin, msg) returns, as it is: the contents of the
file are that container, made in the one encryption of this call, and, unless
it is empty, not its base64 encoding. -/
theorem WriteToAdmin_writes_binary_container (lib : OpenPGP) (obj : GpgRes) (w : World)
    (msg buf0 : Bytes) (wr : EncWriter) (pfx : String) (a : Entity)
    (hA : obj.Admin = some a)
    (hinit : Encrypt lib w.rand [some a] obj.Entity = Result.ret (.ok (wr, buf0)))
    (hfile : pfx ++ "/MessageForAdmin.gpg" ∉ w.locked) :
    ∃ c w1 w3,
      c = buf0 ++ (lib.write wr msg).1 ++ (lib.close wr msg).1
      ∧ CryptingMsg lib obj.Admin msg
          (obj, { w with log := w.log ++ [LogEntry.text "PGP: Writing messages to Admin"] })
        = (Result.ret c, (obj, w1))
      ∧ WriteToAdmin lib msg pfx (obj, w) = (Result.ret (), (obj, w3))
      ∧ w3.files.lookup (pfx ++ "/MessageForAdmin.gpg") = some c
      ∧ (c = [] ∨ w3.files.lookup (pfx ++ "/MessageForAdmin.gpg") ≠ some (encodeToString c))
      ∧ w3.rand = w.rand + 1 := by
  rw [← hA] at hinit
  obtain ⟨w1, h1, _⟩ := CryptingMsg_run lib obj.Admin msg buf0 wr obj
    { w with log := w.log ++ [LogEntry.text "PGP: Writing messages to Admin"] } hinit
  obtain ⟨w3, h3, hf, hr⟩ := WriteToAdmin_run lib msg buf0 wr pfx obj w hinit hfile
  refine ⟨_, w1, w3, rfl, h1, h3, hf, ?_, hr⟩
  by_cases hc : buf0 ++ (lib.write wr msg).1 ++ (lib.close wr msg).1 = []
  · exact Or.inl hc
  · refine Or.inr ?_
    rw [hf]
    intro h
    exact encodeToString_ne_self _ hc (Option.some.inj h).symm

theorem WriteToAdmin_writes_binary_container_witness :
    alice.Admin = some adminEntity
    ∧ ∃ c w1 w3,
      c = [1, 9, 42] ++ (toy.write
            { seed := 42, recipients := [adminEntity], signed := alice.Entity,
              cipher := 7, hash := 5 } hello).1
          ++ (toy.close
            { seed := 42, recipients := [adminEntity], signed := alice.Entity,
              cipher := 7, hash := 5 } hello).1
      ∧ CryptingMsg toy alice.Admin hello
          (alice, { w0 with log := w0.log ++ [LogEntry.text "PGP: Writing messages to Admin"] })
        = (Result.ret c, (alice, w1))
      ∧ WriteToAdmin toy hello "/tmp" (alice, w0) = (Result.ret (), (alice, w3))
      ∧ w3.files.lookup ("/tmp" ++ "/MessageForAdmin.gpg") = some c
      ∧ (c = [] ∨ w3.files.lookup ("/tmp" ++ "/MessageForAdmin.gpg") ≠ some (encodeToString c))
      ∧ w3.rand = w0.rand + 1 :=
  ⟨rfl, WriteToAdmin_writes_binary_container toy alice w0 hello [1, 9, 42]
    { seed := 42, recipients := [adminEntity], signed := alice.Entity, cipher := 7, hash := 5 }
    "/tmp" adminEntity rfl rfl (by decide)⟩

/-- C4, counterexample to the claim as stated: after WriteToAdmin("hello",
"/tmp") the file /tmp/MessageForAdmin.gpg holds the bytes of the container,
which are not valid base64 at all and differ from the text
Crypt(obj.Admin, "hello") returns, be it called in the same state or after
WriteToAdmin (where it encodes the container of a new encryption). -/
theorem WriteToAdmin_file_is_not_base64 :
    (WriteToAdmin toy hello "/tmp" (alice, w0)).2.2.files.lookup "/tmp/MessageForAdmin.gpg"
      = some [1, 9, 42, 104, 101, 108, 108, 111, 254, 5]
    ∧ decodeString [1, 9, 42, 104, 101, 108, 108, 111, 254, 5] = ([], some (.corruptInput 0))
    ∧ (Crypt toy alice.Admin hello (alice, w0)).1
      = Result.ret [65, 81, 107, 113, 97, 71, 86, 115, 98, 71, 47, 43, 66, 81, 61, 61]
    ∧ (Crypt toy alice.Admin hello (WriteToAdmin toy hello "/tmp" (alice, w0)).2).1
      = Result.ret (encodeToString [1, 9, 43, 104, 101, 108, 108, 111, 254, 5]) := by
  decide

/-- C5, as the code has it. On an input that is not valid standard base64
Decrypt prints the decoding error and goes on with the bytes decoded before
the invalid position: it returns exactly what it returns on the valid
encoding of those bytes. -/
theorem Decrypt_invalid_base64_continues (lib : OpenPGP) (obj : GpgRes) (w : World)
    (encString : Bytes) (err : GoError)
    (hdec : (decodeString encString).2 = some err) :
    (Decrypt lib encString (obj, w)).1
      = (Decrypt lib (encodeToString (decodeString encString).1) (obj, w)).1
    ∧ LogEntry.error err ∈ (Decrypt lib encString (obj, w)).2.2.log := by
  rcases hr : lib.readMessage (decodeString encString).1 [obj.Entity] with (e | md) | _ <;>
    [skip; cases hm : md.readErr; skip] <;>
    simp [Decrypt, bind, Go.bind, pure, Go.pure, liftW, getObj, logLine, checkError, crash,
      decodeString_encodeToString, hr, hdec, *]

theorem Decrypt_invalid_base64_continues_witness :
    (decodeString
      [65, 81, 86, 78, 97, 71, 86, 115, 98, 71, 47, 43, 67, 81, 61, 61, 33]).2
      = some (.corruptInput 16)
    ∧ (Decrypt toy [65, 81, 86, 78, 97, 71, 86, 115, 98, 71, 47, 43, 67, 81, 61, 61, 33]
        (alice, w0)).1
      = (Decrypt toy (encodeToString (decodeString
          [65, 81, 86, 78, 97, 71, 86, 115, 98, 71, 47, 43, 67, 81, 61, 61, 33]).1)
          (alice, w0)).1
    ∧ LogEntry.error (.corruptInput 16)
      ∈ (Decrypt toy [65, 81, 86, 78, 97, 71, 86, 115, 98, 71, 47, 43, 67, 81, 61, 61, 33]
          (alice, w0)).2.2.log :=
  ⟨by decide, Decrypt_invalid_base64_continues toy alice w0
    [65, 81, 86, 78, 97, 71, 86, 115, 98, 71, 47, 43, 67, 81, 61, 61, 33] (.corruptInput 16)
    (by decide)⟩

/-- C5, counterexample to the claim as stated: the base64 text of a message
for Alice holding "hello", followed by the character "!", is not valid
base64, and Decrypt returns the plaintext "hello" on it. -/
theorem Decrypt_returns_plaintext_on_invalid_base64 :
    toy.readMessage forAlice [alice.Entity]
      = Result.ret (.ok { UnverifiedBody := hello, readErr := none })
    ∧ encodeToString forAlice
      = [65, 81, 86, 78, 97, 71, 86, 115, 98, 71, 47, 43, 67, 81, 61, 61]
    ∧ decodeString [65, 81, 86, 78, 97, 71, 86, 115, 98, 71, 47, 43, 67, 81, 61, 61, 33]
      = (forAlice, some (.corruptInput 16))
    ∧ (Decrypt toy [65, 81, 86, 78, 97, 71, 86, 115, 98, 71, 47, 43, 67, 81, 61, 61, 33]
        (alice, w0)).1
      = Result.ret hello :=
  ⟨rfl, by decide, by decide, by decide⟩

/-- C6 (the code departs from the claim). When ReadMessage fails on the
decoded bytes with the keyring holding only obj.Entity, Decrypt prints the
error and goes on to md.UnverifiedBody with md nil: it ends in a nil pointer
dereference, not in an error handed to the caller. -/
theorem Decrypt_panics_when_ReadMessage_fails (lib : OpenPGP) (obj : GpgRes) (w : World)
    (encString : Bytes) (err : GoError)
    (hread : lib.readMessage (decodeString encString).1 [obj.Entity]
      = Result.ret (.error err)) :
    (Decrypt lib encString (obj, w)).1 = Result.crashed
    ∧ LogEntry.error err ∈ (Decrypt lib encString (obj, w)).2.2.log
    ∧ (Decrypt lib encString (obj, w)).2.1 = obj := by
  cases hd : (decodeString encString).2 <;>
    simp [Decrypt, bind, Go.bind, pure, Go.pure, liftW, getObj, logLine, checkError, crash,
      hread, hd]

theorem Decrypt_panics_when_ReadMessage_fails_witness :
    (Crypt toy alice.Admin hello (alice, w0)).1
      = Result.ret [65, 81, 107, 113, 97, 71, 86, 115, 98, 71, 47, 43, 66, 81, 61, 61]
    ∧ toy.readMessage
        (decodeString [65, 81, 107, 113, 97, 71, 86, 115, 98, 71, 47, 43, 66, 81, 61, 61]).1
        [alice.Entity] = Result.ret (.error (.pgpError 7))
    ∧ Decrypt toy [65, 81, 107, 113, 97, 71, 86, 115, 98, 71, 47, 43, 66, 81, 61, 61] (alice, w0)
      = (Result.crashed, (alice, { w0 with log :=
          [LogEntry.text "Decrypting the test file", LogEntry.error (.pgpError 7)] }))
    ∧ (Decrypt toy [65, 81, 107, 113, 97, 71, 86, 115, 98, 71, 47, 43, 66, 81, 61, 61]
        (alice, w0)).1 = Result.crashed
    ∧ LogEntry.error (.pgpError 7)
      ∈ (Decrypt toy [65, 81, 107, 113, 97, 71, 86, 115, 98, 71, 47, 43, 66, 81, 61, 61]
          (alice, w0)).2.2.log
    ∧ (Decrypt toy [65, 81, 107, 113, 97, 71, 86, 115, 98, 71, 47, 43, 66, 81, 61, 61]
        (alice, w0)).2.1 = alice :=
  ⟨by decide, rfl, by decide, Decrypt_panics_when_ReadMessage_fails toy alice w0
    [65, 81, 107, 113, 97, 71, 86, 115, 98, 71, 47, 43, 66, 81, 61, 61] (.pgpError 7) rfl⟩

/-- C7, as the code has it. Once Encrypt has set up the writer, an error of
the plaintext Write or of Close is only printed: CryptingMsg returns the
buffer with everything the library wrote to it, Crypt returns the base64
encoding of that buffer, and WriteToAdmin writes the buffer to its file. -/
theorem CryptingMsg_keeps_buffer_on_write_close_error (lib : OpenPGP) (obj : GpgRes)
    (w : World) (to_ : Option Entity) (msg buf0 bufA : Bytes) (wr wrA : EncWriter)
    (pfx : String)
    (hinit : Encrypt lib w.rand [to_] obj.Entity = Result.ret (.ok (wr, buf0)))
    (hinitA : Encrypt lib w.rand [obj.Admin] obj.Entity = Result.ret (.ok (wrA, bufA)))
    (hfile : pfx ++ "/MessageForAdmin.gpg" ∉ w.locked) :
    ∃ w1 w2 w3,
      CryptingMsg lib to_ msg (obj, w) =
        (Result.ret (buf0 ++ (lib.write wr msg).1 ++ (lib.close wr msg).1), (obj, w1))
      ∧ (∀ e, (lib.write wr msg).2 = some e → LogEntry.error e ∈ w1.log)
      ∧ (∀ e, (lib.close wr msg).2 = some e → LogEntry.error e ∈ w1.log)
      ∧ Crypt lib to_ msg (obj, w) =
        (Result.ret (encodeToString (buf0 ++ (lib.write wr msg).1 ++ (lib.close wr msg).1)),
          (obj, w2))
      ∧ WriteToAdmin lib msg pfx (obj, w) = (Result.ret (), (obj, w3))
      ∧ w3.files.lookup (pfx ++ "/MessageForAdmin.gpg") =
        some (bufA ++ (lib.write wrA msg).1 ++ (lib.close wrA msg).1) := by
  obtain ⟨w1, h1, _, _, hw, hc⟩ := CryptingMsg_run lib to_ msg buf0 wr obj w hinit
  obtain ⟨w2, h2, _⟩ := Crypt_run lib to_ msg buf0 wr obj w hinit
  obtain ⟨w3, h3, hf, _⟩ := WriteToAdmin_run lib msg bufA wrA pfx obj w hinitA hfile
  exact ⟨w1, w2, w3, h1, hw, hc, h2, h3, hf⟩

theorem CryptingMsg_keeps_buffer_on_write_close_error_witness :
    (toy.close { seed := 42, recipients := [adminEntity], signed := bob.Entity,
                 cipher := 7, hash := 5 } hello).2 = some (.pgpError 6)
    ∧ ∃ w1 w2 w3,
      CryptingMsg toy bob.Admin hello (bob, w0) =
        (Result.ret ([1, 9, 42]
          ++ (toy.write { seed := 42, recipients := [adminEntity], signed := bob.Entity,
                          cipher := 7, hash := 5 } hello).1
          ++ (toy.close { seed := 42, recipients := [adminEntity], signed := bob.Entity,
                          cipher := 7, hash := 5 } hello).1), (bob, w1))
      ∧ (∀ e, (toy.write { seed := 42, recipients := [adminEntity], signed := bob.Entity,
                           cipher := 7, hash := 5 } hello).2 = some e
          → LogEntry.error e ∈ w1.log)
      ∧ (∀ e, (toy.close { seed := 42, recipients := [adminEntity], signed := bob.Entity,
                           cipher := 7, hash := 5 } hello).2 = some e
          → LogEntry.error e ∈ w1.log)
      ∧ Crypt toy bob.Admin hello (bob, w0) =
        (Result.ret (encodeToString ([1, 9, 42]
          ++ (toy.write { seed := 42, recipients := [adminEntity], signed := bob.Entity,
                          cipher := 7, hash := 5 } hello).1
          ++ (toy.close { seed := 42, recipients := [adminEntity], signed := bob.Entity,
                          cipher := 7, hash := 5 } hello).1)), (bob, w2))
      ∧ WriteToAdmin toy hello "/tmp" (bob, w0) = (Result.ret (), (bob, w3))
      ∧ w3.files.lookup ("/tmp" ++ "/MessageForAdmin.gpg") =
        some ([1, 9, 42]
          ++ (toy.write { seed := 42, recipients := [adminEntity], signed := bob.Entity,
                          cipher := 7, hash := 5 } hello).1
          ++ (toy.close { seed := 42, recipients := [adminEntity], signed := bob.Entity,
                          cipher := 7, hash := 5 } hello).1) :=
  ⟨rfl, CryptingMsg_keeps_buffer_on_write_close_error toy bob w0 bob.Admin hello [1, 9, 42]
    [1, 9, 42]
    { seed := 42, recipients := [adminEntity], signed := bob.Entity, cipher := 7, hash := 5 }
    { seed := 42, recipients := [adminEntity], signed := bob.Entity, cipher := 7, hash := 5 }
    "/tmp" rfl rfl (by decide)⟩

/-- C7, counterexample to the claim as stated: for the signer Bob, Close
fails; CryptingMsg still returns the buffer without its trailer, Crypt returns
its base64 encoding to the caller, and WriteToAdmin writes it to the file. -/
theorem Crypt_returns_unfinished_buffer_after_failed_Close :
    (toy.close { seed := 42, recipients := [adminEntity], signed := bob.Entity,
                 cipher := 7, hash := 5 } hello).2 = some (.pgpError 6)
    ∧ (CryptingMsg toy bob.Admin hello (bob, w0)).1
      = Result.ret [1, 9, 42, 104, 101, 108, 108, 111]
    ∧ (Crypt toy bob.Admin hello (bob, w0)).1
      = Result.ret [65, 81, 107, 113, 97, 71, 86, 115, 98, 71, 56, 61]
    ∧ (WriteToAdmin toy hello "/tmp" (bob, w0)).2.2.files.lookup "/tmp/MessageForAdmin.gpg"
      = some [1, 9, 42, 104, 101, 108, 108, 111] := by
  decide

/-- C8. When NewEntity succeeded with e and the signing calls of SelfSign
return, and the admin key file is missing (os.Open fails) or ReadEntity fails
on its contents (empty, truncated, malformed), addAdminPubKey returns nil
without a panic and NewGpgRes returns a resource with Admin == nil whose
Entity is the generated, self-signed entity. -/
theorem NewGpgRes_admin_key_unreadable (lib : OpenPGP) (name email path : String) (w : World)
    (e : Entity)
    (hnew : lib.newEntity name "" email { DefaultHash := crypto.SHA256 } = .ok e)
    (hsign : signingCompletes lib e = true)
    (hfail : w.files.lookup path = none
      ∨ ∃ content err, w.files.lookup path = some content ∧ lib.readEntity content = .error err) :
    (addAdminPubKey lib path w).1 = Result.ret none
    ∧ ∃ w1, NewGpgRes lib name email path w =
        (Result.ret { Name := name, Comment := "", Email := email,
                      Entity := some (selfSigned lib e), Admin := none }, w1) := by
  constructor
  · obtain ⟨err, h⟩ := addAdminPubKey_fails lib path w hfail
    rw [h]
  · obtain ⟨err, h⟩ := addAdminPubKey_fails lib path
      { w with log := w.log ++ [LogEntry.text "PGP: init PGP", LogEntry.text "TESTING PGP",
          LogEntry.text "Sign Entity"] } hfail
    have hs := SelfSign_run lib
      { Name := name, Comment := "", Email := email, Entity := some e, Admin := none }
      { w with log := w.log ++ [LogEntry.text "PGP: init PGP", LogEntry.text "TESTING PGP"] }
      e rfl hsign
    simp only [List.append_assoc, List.cons_append, List.nil_append] at h hs
    simp [NewGpgRes, Init, bind, Go.bind, pure, Go.pure, liftW, getObj, modifyObj, logLine, hnew,
      goPair, hs, h]

theorem NewGpgRes_admin_key_unreadable_witness :
    toy.newEntity "Alice" "" "alice@example.com" { DefaultHash := crypto.SHA256 }
      = .ok aliceEntity
    ∧ (addAdminPubKey toy "/etc/admin.gpg" wTruncated).1 = Result.ret none
    ∧ ∃ w1, NewGpgRes toy "Alice" "alice@example.com" "/etc/admin.gpg" wTruncated =
        (Result.ret { Name := "Alice", Comment := "", Email := "alice@example.com",
                      Entity := some (selfSigned toy aliceEntity),
                      Admin := none }, w1) :=
  ⟨rfl, NewGpgRes_admin_key_unreadable toy "Alice" "alice@example.com" "/etc/admin.gpg"
    wTruncated aliceEntity rfl (by decide)
    (Or.inr ⟨[153], .pgpError 3, rfl, rfl⟩)⟩

/-- C9, as the code has it. If NewEntity fails, Init prints the error and
returns at once: NewGpgRes returns, without any error value, a resource with
Name and Email set, an empty Comment, and both Entity and Admin nil; SelfSign
and addAdminPubKey are not run. -/
theorem NewGpgRes_newEntity_fails (lib : OpenPGP) (name email path : String) (w : World)
    (err : GoError)
    (hnew : lib.newEntity name "" email { DefaultHash := crypto.SHA256 } = .error err) :
    NewGpgRes lib name email path w =
      (Result.ret { Name := name, Comment := "", Email := email, Entity := none, Admin := none },
       { w with log := w.log ++ [LogEntry.text "PGP: init PGP", LogEntry.text "TESTING PGP",
          LogEntry.error err] }) := by
  simp [NewGpgRes, Init, bind, Go.bind, pure, Go.pure, liftW, getObj, modifyObj, logLine, hnew,
    goPair]

theorem NewGpgRes_newEntity_fails_witness :
    NewGpgRes toy "Al<ice" "alice@example.com" "/etc/admin.gpg" w0 =
      (Result.ret { Name := "Al<ice", Comment := "", Email := "alice@example.com",
                    Entity := none, Admin := none },
       { w0 with log := w0.log ++ [LogEntry.text "PGP: init PGP", LogEntry.text "TESTING PGP",
          LogEntry.error (.pgpError 1)] }) :=
  NewGpgRes_newEntity_fails toy "Al<ice" "alice@example.com" "/etc/admin.gpg" w0 (.pgpError 1) rfl

/-- C9, counterexample to the claim as stated: key generation fails for the
name "(Alice)", and NewGpgRes returns normally a resource whose Entity is nil. -/
theorem NewGpgRes_returns_resource_without_entity :
    toy.newEntity "(Alice)" "" "alice@example.com" { DefaultHash := crypto.SHA256 }
      = .error (.pgpError 1)
    ∧ (NewGpgRes toy "(Alice)" "alice@example.com" "/etc/admin.gpg" w0).1 =
      Result.ret { Name := "(Alice)", Comment := "", Email := "alice@example.com",
                   Entity := none, Admin := none } :=
  ⟨rfl, by decide⟩

/-- C10. Crypt, CryptingMsg, WriteToAdmin, Decrypt and SavePubKey leave the
resource (Name, Comment, Email, Entity, Admin) as it was, whether they return
or panic; and a second SavePubKey right after a first one ends with the same
outcome and the same files as the first: both exports serialize the same
entity. -/
theorem methods_leave_receiver_unchanged (lib : OpenPGP) (obj : GpgRes) (w : World)
    (to_ : Option Entity) (msg encString : Bytes) (pfx : String) :
    (Crypt lib to_ msg (obj, w)).2.1 = obj
    ∧ (CryptingMsg lib to_ msg (obj, w)).2.1 = obj
    ∧ (WriteToAdmin lib msg pfx (obj, w)).2.1 = obj
    ∧ (Decrypt lib encString (obj, w)).2.1 = obj
    ∧ (SavePubKey lib pfx (obj, w)).2.1 = obj
    ∧ (SavePubKey lib pfx (SavePubKey lib pfx (obj, w)).2).1 = (SavePubKey lib pfx (obj, w)).1
    ∧ (SavePubKey lib pfx (SavePubKey lib pfx (obj, w)).2).2.1 = obj
    ∧ (SavePubKey lib pfx (SavePubKey lib pfx (obj, w)).2).2.2.files
      = (SavePubKey lib pfx (obj, w)).2.2.files := by
  refine ⟨Crypt_receiver lib to_ msg obj w, CryptingMsg_receiver lib to_ msg obj w,
    WriteToAdmin_receiver lib msg pfx obj w, Decrypt_receiver lib encString obj w, ?_, ?_, ?_, ?_⟩
  all_goals
    rw [SavePubKey_run lib pfx obj w]
    by_cases hl : pfx ++ "/PubGPG1.gpg" ∈ w.locked <;>
      cases hs : lib.serialize obj.Entity <;>
      simp [SavePubKey_run, hl, hs, List.filter_filter]

end Gpg
